import Mathlib

/-!
Verification development for the indiboxer arcade game core
(src/src/assets/js/app.js with helpers from src/dist/assets/js/indieboxer.js).

The JavaScript entity-update logic is shallowly embedded: JS numbers that
hold fractional positions and time deltas become `ℚ`; integer-valued JS
numbers (speeds, rows, scores, lives) become `ℤ`; JS arrays become `List`;
`Math.random()` draws are deterministically supplied by natural-number
oracle arguments, one per call site, so that a draw `getRandomInt lo hi r`
realises every value of `[lo, hi)` as `r` varies (this is the shallow
rendering of a uniform draw).  Fallible code (array lookup off the end,
producing `undefined` in JS) returns `Option`.
-/

/-- JS `ToInteger` truncation toward zero, applied to fractional values
used as array indices. -/
def jsToInt (q : ℚ) : ℤ :=
  if q < 0 then -⌊-q⌋ else ⌊q⌋

/-- JS `Math.round`: round half toward positive infinity. -/
def jsRound (q : ℚ) : ℤ :=
  ⌊q + 1/2⌋

/-- JS `Array.prototype.splice(start, deleteCount, ...items)` on a list:
a negative start counts from the end, start is clamped into `[0, length]`,
`deleteCount` elements are removed there and `items` inserted. -/
def jsSplice {α : Type} (l : List α) (start : ℤ) (deleteCount : ℕ) (items : List α) : List α :=
  let len : ℤ := l.length
  let s : ℕ := (if start < 0 then max (len + start) 0 else min start len).toNat
  l.take s ++ items ++ l.drop (s + deleteCount)

/-- Replace the `i`-th element of a list by `f` applied to it (mirrors a JS
in-place mutation of one element of an array of arrays); out of range the
list is unchanged. -/
def listModify {α : Type} (l : List α) (i : ℕ) (f : α → α) : List α :=
  match l.get? i with
  | some a => l.set i (f a)
  | none => l

/-- `getRandomInt(min, max)` (dist/assets/js/indieboxer.js): a uniform
integer in `[min, max)`; the oracle `r` selects the draw.  For `max ≤ min`
JS yields `min` (`Math.floor(Math.random() * 0) = 0`). -/
def getRandomInt (lo hi : ℤ) (r : ℕ) : ℤ :=
  if hi ≤ lo then lo else lo + (r : ℤ) % (hi - lo)

/-- `getRandomIntExclude(min, max, exclude)`: a draw in `[min, max)`, and on
collision with `exclude` nudged by one toward `min` (or away from it at the
lower end). -/
def getRandomIntExclude (lo hi exclude : ℤ) (r : ℕ) : ℤ :=
  let random := getRandomInt lo hi r
  if random = exclude then
    if lo < random then random - 1 else random + 1
  else random

/-- `getRandomIntExcludeMultiple(min, max, excludeArray)`: builds the
candidate list `[min, max]` (inclusive) minus the excluded values, then
indexes it by a uniform draw.  An exhausted candidate list gives JS
`undefined`, embedded as `none`. -/
def getRandomIntExcludeMultiple (lo hi : ℤ) (excludeArray : List ℤ) (r : ℕ) : Option ℤ :=
  let randomArray := ((List.range (hi - lo + 1).toNat).map (fun i : ℕ => lo + (i : ℤ))).filter
    (fun v => !excludeArray.contains v)
  randomArray.get? (r % randomArray.length)

/-- Movement direction: the strings `''`, `'left'`, `'up'`, `'right'`,
`'down'` of the source. -/
inductive Dir : Type
  | none
  | left
  | up
  | right
  | down
deriving DecidableEq, Repr, Inhabited

/-- One entry of `player.movements`: `{keyCode, time, x, y}`. -/
structure MoveEntry : Type where
  keyCode : Dir
  time : ℕ
  x : ℚ
  y : ℚ
deriving DecidableEq, Repr, Inhabited

/-- One entry of `player.deliveries` or `boxesLost`: `{time, x, y}`. -/
structure DeliveryEntry : Type where
  time : ℕ
  x : ℚ
  y : ℚ
deriving DecidableEq, Repr, Inhabited

/-- The `Player` object of app.js. -/
structure Player : Type where
  sprite : String
  x : ℚ
  y : ℚ
  moveX : ℚ
  moveY : ℚ
  moveDirection : Dir
  h : ℤ
  w : ℤ
  moveSpeed : ℤ
  moving : Bool
  movements : List MoveEntry
  deliveries : List DeliveryEntry
  lives : ℤ
  level : ℤ
deriving DecidableEq, Repr, Inhabited

/-- The `Item` object of app.js (cargo box or bonus heart): `type` is the
string `'indiebox'` or `'heart'` and `ranOver` the damage counter. -/
structure ItemState : Type where
  sprite : String
  type : String
  collected : Bool
  x : ℚ
  y : ℚ
  h : ℤ
  w : ℤ
  ranOver : ℤ
deriving DecidableEq, Repr, Inhabited

/-- The `Goal` object: fixed top row. -/
structure GoalState : Type where
  sprite : String
  x : ℚ
  y : ℚ
deriving DecidableEq, Repr, Inhabited

/-- The `Rock` obstacle. -/
structure Rock : Type where
  sprite : String
  x : ℚ
  y : ℚ
deriving DecidableEq, Repr, Inhabited

/-- The `Enemy` object of app.js: fractional column `x`, integer row `y`,
integer speed, previous tracked lane slot, visibility and hit-box flags,
lane-order index. -/
structure Enemy : Type where
  sprite : String
  speed : ℤ
  x : ℚ
  y : ℤ
  prevX : ℚ
  visable : Bool
  hitBox : Bool
  laneOrder : ℕ
deriving DecidableEq, Repr, Inhabited

/-- `Player.prototype.checkLevel`: level and move speed from the global
score `points`.  No branch fires at `points ≥ 10000` (level and speed then
keep their previous values). -/
def Player.checkLevel (points : ℤ) (p : Player) : Player :=
  if points < 1000 then {p with level := 1}
  else if points < 2000 then {p with level := 2, moveSpeed := 6}
  else if points < 3000 then {p with level := 3, moveSpeed := 7}
  else if points < 4000 then {p with level := 4, moveSpeed := 8}
  else if points < 5000 then {p with level := 5, moveSpeed := 9}
  else if points < 6000 then {p with level := 6, moveSpeed := 10}
  else if points < 7000 then {p with level := 7, moveSpeed := 11}
  else if points < 8000 then {p with level := 8, moveSpeed := 12}
  else if points < 9000 then {p with level := 9, moveSpeed := 13}
  else if points < 10000 then {p with level := 10, moveSpeed := 14}
  else p

/-- `Player.prototype.intersects(enemy)`: same row and enemy column within
the open band of half a column around the player's column. -/
def Player.intersects (p : Player) (e : Enemy) : Bool :=
  if (e.y : ℚ) = p.y then
    if p.x - 1/2 < e.x ∧ e.x < p.x + 1/2 then true else false
  else false

/-- `Player.prototype.collects(item)`: the item occupies exactly the
player's current position. -/
def Player.collects (p : Player) (it : ItemState) : Bool :=
  if it.x = p.x ∧ it.y = p.y then true else false

/-- `Player.prototype.reachesGoal(item)`: the item occupies the goal's
position. -/
def Player.reachesGoal (g : GoalState) (it : ItemState) : Bool :=
  if it.x = g.x ∧ it.y = g.y then true else false

/-- `Player.prototype.handleInput(keyCode)`: an accepted move sets the
direction and the moving flag, advances the target cell one step and logs
the move; an obstructed, out-of-range or mid-move request falls through
with no change.  `now` supplies `Date.now()` for the log entry. -/
def Player.handleInput (keyCode : Dir) (now : ℕ) (allRocks : List Rock) (p : Player) : Player :=
  match keyCode with
  | Dir.left =>
    let obstructed := allRocks.any (fun rock => rock.y = p.y ∧ rock.x = p.x - 1)
    if obstructed = false ∧ 0 < p.x ∧ p.moving = false then
      {p with moveDirection := Dir.left, moving := true, moveX := p.moveX - 1,
              movements := p.movements ++ [⟨Dir.left, now, p.moveX - 1, p.y⟩]}
    else p
  | Dir.up =>
    let obstructed := allRocks.any (fun rock => rock.x = p.x ∧ rock.y = p.y - 1)
    if obstructed = false ∧ 0 < p.y ∧ p.moving = false then
      {p with moveDirection := Dir.up, moving := true, moveY := p.moveY - 1,
              movements := p.movements ++ [⟨Dir.up, now, p.x, p.y⟩]}
    else p
  | Dir.right =>
    let obstructed := allRocks.any (fun rock => rock.y = p.y ∧ rock.x = p.x + 1)
    if obstructed = false ∧ p.x < 4 ∧ p.moving = false then
      {p with moveDirection := Dir.right, moving := true, moveX := p.moveX + 1,
              movements := p.movements ++ [⟨Dir.right, now, p.moveX + 1, p.y⟩]}
    else p
  | Dir.down =>
    let obstructed := allRocks.any (fun rock => rock.x = p.x ∧ rock.y = p.y + 1)
    if obstructed = false ∧ p.y < 5 ∧ p.moving = false then
      {p with moveDirection := Dir.down, moving := true, moveY := p.moveY + 1,
              movements := p.movements ++ [⟨Dir.down, now, p.x, p.y⟩]}
    else p
  | Dir.none => p

/-- The movement phase of `Player.prototype.update(dt)`: while a move is
in flight and no hit is pending, advance the position toward the target
cell at `moveSpeed × dt`, clamping at the target; with no directional
branch applicable, stop moving and snap to integer coordinates. -/
def Player.movePhase (dt : ℚ) (p0 : Player) (hit : Bool) : Player :=
  if p0.moving = true ∧ hit = false then
      if p0.moveX < p0.x ∧ p0.moveDirection = Dir.left then
        let newX := p0.x - dt * (p0.moveSpeed : ℚ)
        {p0 with x := if newX < p0.moveX then p0.moveX else newX}
      else if p0.x < p0.moveX ∧ p0.moveDirection = Dir.right then
        let newX := p0.x + dt * (p0.moveSpeed : ℚ)
        {p0 with x := if p0.moveX < newX then p0.moveX else newX}
      else if p0.moveY < p0.y ∧ p0.moveDirection = Dir.up then
        let newY := p0.y - dt * (p0.moveSpeed : ℚ)
        {p0 with y := if newY < p0.moveY then p0.moveY else newY}
      else if p0.y < p0.moveY ∧ p0.moveDirection = Dir.down then
        let newY := p0.y + dt * (p0.moveSpeed : ℚ)
        {p0 with y := if p0.moveY < newY then p0.moveY else newY}
    else
      {p0 with moving := false, x := (jsRound p0.x : ℚ), y := (jsRound p0.y : ℚ)}
  else p0

/-- The hit/lives/game-over state machine of `Player.prototype.update`:
with a hit pending, either burn a life and respawn in row 5, or (on the
last life) reset lives, return home, raise game-over and reset the cargo
box. -/
def Player.hitPhase (r1 rbx rby : ℕ) (p1 : Player) (hit : Bool)
    (gameOver : Bool) (box : ItemState) : Player × Bool × Bool × ItemState :=
  if hit = true then
    if 1 < p1.lives then
      ({p1 with lives := p1.lives - 1, x := (getRandomInt 1 4 r1 : ℚ), y := 5,
                moveX := (getRandomInt 1 4 r1 : ℚ), moveY := 5},
       false, gameOver, box)
    else
      ({p1 with x := 2, y := 5, moveX := 2, moveY := 5, lives := 3},
       false, true,
       {box with ranOver := 0, x := (getRandomInt 0 5 rbx : ℚ),
                 y := (getRandomInt 1 4 rby : ℚ)})
  else (p1, hit, gameOver, box)

/-- `Player.prototype.update(dt)`: interpolated movement toward the target
cell while no hit is pending, then the hit/lives/game-over state machine,
then `checkLevel`.  Oracle `r1` feeds the random respawn column of the
lives-left branch, `rbx`/`rby` the cargo reset of the game-over branch.
Returns the updated player, global hit flag, global game-over flag and the
cargo box. -/
def Player.update (dt : ℚ) (r1 rbx rby : ℕ) (p0 : Player) (hit : Bool)
    (gameOver : Bool) (box : ItemState) (points : ℤ) :
    Player × Bool × Bool × ItemState :=
  let next := Player.hitPhase r1 rbx rby (Player.movePhase dt p0 hit) hit gameOver box
  (Player.checkLevel points next.1, next.2.1, next.2.2.1, next.2.2.2)

/-- The shared mutable globals that `Item.prototype.update` reads and
writes: the hit and goal flags, the score, the clock seconds, the staged
heart cell and the lost-box log. -/
structure Globals : Type where
  hit : Bool
  goalReached : Bool
  points : ℤ
  gameSeconds : ℕ
  heartX : ℚ
  heartY : ℚ
  boxesLost : List DeliveryEntry
deriving DecidableEq, Repr, Inhabited

/-- The oracle values for the random draws of one `Item.prototype.update`
call, one field per call site (`rock` indexes the draws of the
`allRocks.forEach` relocation). -/
structure ItemRand : Type where
  dropX : ℕ
  dropY : ℕ
  delX : ℕ
  delY : ℕ
  desX : ℕ
  desY : ℕ
  hX : ℕ
  hY : ℕ
  rock : ℕ → ℕ

/-- First phase of `Item.prototype.update`: a pending hit drops a collected
cargo box at a fresh random cell. -/
def Item.dropOnHit (it : ItemState) (hit : Bool) (rx ry : ℕ) : ItemState :=
  if hit = true ∧ it.collected = true ∧ it.type = "indiebox" then
    {it with collected := false, x := (getRandomInt 0 5 rx : ℚ),
             y := (getRandomInt 1 4 ry : ℚ)}
  else it

/-- Second phase of `Item.prototype.update`: the player standing on the
item collects it. -/
def Item.pickUp (it : ItemState) (p : Player) : ItemState :=
  if Player.collects p it = true then {it with collected := true} else it

/-- The hit-drop followed by the pickup check: the item state at the point
of `Item.prototype.update` where the collected-item switch is entered. -/
def Item.afterPickup (it : ItemState) (p : Player) (hit : Bool) (rx ry : ℕ) : ItemState :=
  Item.pickUp (Item.dropOnHit it hit rx ry) p

/-- `Item.prototype.update()`: hit-drop, pickup, the collected-item switch
(cargo follows the player and is delivered at the goal; a heart grants a
life), the cargo damage/destruction switch, and the heart's time-window
relocations.  Returns the item, the player, the rocks, the enemies and the
globals as updated. -/
def Item.update (it0 : ItemState) (p : Player) (goal : GoalState)
    (allRocks : List Rock) (allEnemies : List Enemy) (gl : Globals)
    (rnd : ItemRand) (now : ℕ) :
    ItemState × Player × List Rock × List Enemy × Globals :=
  let it2 := Item.afterPickup it0 p gl.hit rnd.dropX rnd.dropY
  let afterCollect : ItemState × Player × List Rock × Globals :=
    if it2.collected = true then
      if it2.type = "indiebox" then
        let itf := {it2 with x := p.x, y := p.y}
        if Player.reachesGoal goal itf = true then
          let p' := {p with deliveries := p.deliveries ++ [⟨now, itf.x, itf.y⟩]}
          let payout : ℤ :=
            if it2.ranOver = 0 then 100
            else if it2.ranOver = 1 then 50
            else if it2.ranOver = 2 then 25
            else 0
          ({itf with collected := false, ranOver := 0,
                     x := (getRandomInt 0 5 rnd.delX : ℚ),
                     y := (getRandomInt 1 4 rnd.delY : ℚ)},
           p',
           allRocks.mapIdx (fun i rock => {rock with x := (getRandomInt 0 5 (rnd.rock i) : ℚ)}),
           {gl with points := gl.points + payout, goalReached := true})
        else (itf, p, allRocks, gl)
      else if it2.type = "heart" then
        ({it2 with collected := false, x := 100, y := 100},
         {p with lives := p.lives + 1}, allRocks, {gl with points := gl.points + 50})
      else (it2, p, allRocks, gl)
    else (it2, p, allRocks, gl)
  let it3 := afterCollect.1
  let p3 := afterCollect.2.1
  let rocks3 := afterCollect.2.2.1
  let gl3 := afterCollect.2.2.2
  let afterDamage : ItemState × List Enemy × Globals :=
    if it3.type = "indiebox" then
      if it3.ranOver = 1 then
        ({it3 with sprite := "assets/img/gem-green.png"}, allEnemies, gl3)
      else if it3.ranOver = 2 then
        ({it3 with sprite := "assets/img/gem-orange.png"}, allEnemies, gl3)
      else if it3.ranOver = 3 then
        ({it3 with sprite := "assets/img/gem-blue.png",
                   x := (getRandomInt 0 5 rnd.desX : ℚ),
                   y := (getRandomInt 1 4 rnd.desY : ℚ), ranOver := 0},
         allEnemies.map (fun e => {e with hitBox := false}),
         {gl3 with points := gl3.points - 50,
                   boxesLost := gl3.boxesLost ++ [⟨now, it3.x, it3.y⟩]})
      else ({it3 with sprite := "assets/img/gem-blue.png"}, allEnemies, gl3)
    else (it3, allEnemies, gl3)
  let it4 := afterDamage.1
  let enemies4 := afterDamage.2.1
  let gl4 := afterDamage.2.2
  let afterShow : ItemState :=
    if it4.type = "heart" ∧ gl4.gameSeconds % 30 = 0 then
      {it4 with x := gl4.heartX, y := gl4.heartY}
    else it4
  let afterHide : ItemState × Globals :=
    if afterShow.type = "heart" ∧ gl4.gameSeconds % 9 = 0 then
      ({afterShow with x := 100, y := 100},
       {gl4 with heartX := (getRandomInt 0 5 rnd.hX : ℚ),
                 heartY := (getRandomIntExclude 1 5 4 rnd.hY : ℚ)})
    else (afterShow, gl4)
  (afterHide.1, p3, rocks3, enemies4, afterHide.2)

/-- The ambient state `Enemy.prototype.update` reads and writes besides the
enemy itself: the off-board lane queues (`enemyQueueLanes`, index `y - 1`),
the on-board lanes (`boardLanes`, index `y`), the shared `allEnemies` list
scanned by the convoy loop, the player, the cargo box and the global hit
flag. -/
structure EnemyEnvState : Type where
  queues : List (List ℤ)
  board : List (List ℚ)
  others : List Enemy
  player : Player
  box : ItemState
  hit : Bool
deriving DecidableEq, Repr, Inhabited

/-- The trailing collision checks of `Enemy.prototype.update`: an enemy
intersecting the player raises the global hit flag; an enemy running over
the cargo box (same row, within half a column, hit-box flag still clear)
increments the box damage counter and sets the enemy's hit-box flag. -/
def Enemy.hitPhase (e : Enemy) (env : EnemyEnvState) : Enemy × EnemyEnvState :=
  let env1 := if Player.intersects env.player e = true then {env with hit := true} else env
  if (e.y : ℚ) = env.box.y ∧ e.hitBox = false ∧
      env.box.x - 1/2 < e.x ∧ e.x < env.box.x + 1/2 then
    ({e with hitBox := true},
     {env1 with box := {env1.box with ranOver := env1.box.ranOver + 1}})
  else (e, env1)

/-- The in-transit queue-position bookkeeping of `Enemy.prototype.update`:
an invisible enemy whose floored column passed its last recorded slot moves
its slot in the off-board queue and re-records it; the (possibly negated)
floored column also becomes the local scan coordinate of the convoy loop. -/
def Enemy.queueStep (e : Enemy) (env : EnemyEnvState) : ℚ × Enemy × EnemyEnvState :=
  if e.visable = false ∧ e.prevX < (⌊e.x⌋ : ℚ) then
    let enemyX : ℤ := if ⌊e.x⌋ < 0 then -⌊e.x⌋ else ⌊e.x⌋
    let q' := listModify env.queues (e.y - 1).toNat
      (fun l => jsSplice (jsSplice l (jsToInt e.prevX) 1 [])
                  (jsRound (enemyX : ℚ)) 0 [jsRound (enemyX : ℚ)])
    ((enemyX : ℚ), {e with prevX := (enemyX : ℚ)}, {env with queues := q'})
  else (e.x, e, env)

/-- The convoy scan of `Enemy.prototype.update`: fold over `allEnemies`,
remembering the speed of the last enemy of the same row that sits no more
than one column behind the scan coordinate and is strictly slower. -/
def Enemy.convoySpeed (others : List Enemy) (enemyX : ℚ) (e : Enemy) : ℤ :=
  others.foldl
    (fun acc enemy =>
      if enemy.y = e.y ∧ enemyX ≤ enemy.x + 1 ∧ enemy.speed < e.speed then enemy.speed
      else acc) 0

/-- `Enemy.prototype.update(dt)`: advance the column by `dt × speed`, then
one of the three phases — the off-board → on-board transition, the
on-board → off-board respawn (fresh lane, excluded off-board column, fresh
speed, cleared hit-box flag), or the in-transit queue-position update and
convoy speed-matching scan — followed by the player/box collision checks.
Oracles `r1`, `r2`, `r3` feed the respawn's row, column and speed draws.
`none` exactly when the respawn's candidate column list is exhausted (JS
would store `NaN`). -/
def Enemy.update (dt : ℚ) (r1 r2 r3 : ℕ) (e0 : Enemy) (env : EnemyEnvState) :
    Option (Enemy × EnemyEnvState) :=
  let e : Enemy := {e0 with x := e0.x + dt * (e0.speed : ℚ)}
  if (0 : ℚ) < e.x ∧ e.visable = false then
    let env1 := {env with
      queues := listModify env.queues (e.y - 1).toNat (fun l => jsSplice l ⌊e.x⌋ 1 []),
      board := listModify env.board e.y.toNat (fun l => jsSplice l (jsToInt e.x) 0 [e.x])}
    some (Enemy.hitPhase {e with visable := true} env1)
  else if 5 ≤ e.x ∧ e.visable = true then
    let newY := getRandomInt 1 4 r1
    match getRandomIntExcludeMultiple 1 5 (env.queues.getD (newY - 1).toNat []) r2 with
    | none => none
    | some c =>
      let e' := {e with visable := false, y := newY, x := -(c : ℚ), prevX := -(c : ℚ),
                        speed := getRandomInt 1 4 r3, hitBox := false}
      let env1 := {env with
        board := listModify env.board newY.toNat (fun l => jsSplice l (e0.laneOrder : ℤ) 1 []),
        queues := listModify env.queues (newY - 1).toNat (fun l => jsSplice l c 0 [c])}
      some (Enemy.hitPhase e' env1)
  else
    let iq := Enemy.queueStep e env
    let newSpeed := Enemy.convoySpeed env.others iq.1 e
    let e2 := if 0 < newSpeed then {iq.2.1 with speed := newSpeed} else iq.2.1
    some (Enemy.hitPhase e2 iq.2.2)

/-- One tick of an enemy's life as the game loop delivers it: the elapsed
time, the respawn oracles and the ambient state at that tick (the other
entities may have moved arbitrarily between this enemy's updates, so each
tick carries its own environment). -/
structure Tick : Type where
  dt : ℚ
  r1 : ℕ
  r2 : ℕ
  r3 : ℕ
  env : EnemyEnvState

/-- Fold a sequence of ticks over one enemy's `update`, keeping only the
enemy (the globals of each tick are exogenous). -/
def enemyRun : List Tick → Enemy → Option Enemy
  | [], e => some e
  | t :: ts, e =>
    match Enemy.update t.dt t.r1 t.r2 t.r3 e t.env with
    | some p => enemyRun ts p.1
    | none => none

/-- A run of ticks along which the enemy stays visible and never triggers
the respawn transition: each tick has non-negative elapsed time and leaves
the advanced column short of 5. -/
def visRun : Enemy → List Tick → Bool
  | _, [] => true
  | e, t :: ts =>
    e.visable && decide ((0 : ℚ) ≤ t.dt) && decide (e.x + t.dt * (e.speed : ℚ) < 5) &&
    (match Enemy.update t.dt t.r1 t.r2 t.r3 e t.env with
     | some p => visRun p.1 ts
     | none => false)

/-- The player as constructed at session start (`new Player(...)`). -/
def initPlayer : Player :=
  {sprite := "assets/img/char-boy.png", x := 2, y := 5, moveX := 2, moveY := 5,
   moveDirection := Dir.none, h := 117, w := 101, moveSpeed := 5, moving := false,
   movements := [], deliveries := [], lives := 3, level := 1}

/-- A cargo box instance (constructor draws placed at column 0, row 1). -/
def initBox : ItemState :=
  {sprite := "assets/img/gem-blue.png", type := "indiebox", collected := false,
   x := 0, y := 1, h := 117, w := 101, ranOver := 0}

/-- The bonus heart as constructed (parked off-canvas at (100, 100)). -/
def initHeart : ItemState :=
  {sprite := "assets/img/heart.png", type := "heart", collected := false,
   x := 100, y := 100, h := 117, w := 101, ranOver := 0}

/-- A goal instance at column 4 of the top row. -/
def wGoal : GoalState :=
  {sprite := "assets/img/star.png", x := 4, y := 0}

/-- A fixed oracle bundle for `Item.update` witnesses. -/
def wRand : ItemRand :=
  {dropX := 0, dropY := 0, delX := 0, delY := 0, desX := 0, desY := 0,
   hX := 0, hY := 0, rock := fun _ => 0}

/-- Globals with no pending flags and a clock second that triggers no heart
window. -/
def wGlobals : Globals :=
  {hit := false, goalReached := false, points := 0, gameSeconds := 1,
   heartX := 0, heartY := 1, boxesLost := []}

/-- An ambient enemy environment: empty lane queues and board lanes, no
other enemies, the start player, a fresh box, no pending hit. -/
def baseEnv : EnemyEnvState :=
  {queues := [[], [], []], board := [[], [], [], [], [], []], others := [],
   player := initPlayer, box := initBox, hit := false}

/-- A visible enemy of lane 2 standing exactly at the right edge (column 5),
about to respawn. -/
def w3e : Enemy :=
  {sprite := "assets/img/enemy-bug.png", speed := 2, x := 5, y := 2, prevX := 0,
   visable := true, hitBox := false, laneOrder := 0}

/-- The enemy the respawn witness's update produces. -/
def C3wE : Enemy :=
  {sprite := "assets/img/enemy-bug.png", speed := 1, x := -1, y := 1, prevX := -1,
   visable := false, hitBox := false, laneOrder := 0}

/-- The ambient state the respawn witness's update produces: the fresh
off-board slot 1 is recorded in the lane-1 queue. -/
def C3wEnv : EnemyEnvState := {baseEnv with queues := [[1], [], []]}

/-- A visible speed-3 enemy of lane 2 at column 1 (the convoy claims are
tested on it). -/
def cex4e : Enemy :=
  {sprite := "assets/img/enemy-bug.png", speed := 3, x := 1, y := 2, prevX := 0,
   visable := true, hitBox := true, laneOrder := 0}

/-- A slower enemy two full columns ahead of `cex4e` in the same lane. -/
def cex4b : Enemy :=
  {sprite := "assets/img/enemy-bug.png", speed := 1, x := 3, y := 2, prevX := 0,
   visable := true, hitBox := true, laneOrder := 0}

/-- The convoy counterexample scene: only `cex4e` and the far-ahead slower
`cex4b` share the lane. -/
def cex4env : EnemyEnvState := {baseEnv with others := [cex4e, cex4b]}

/-- A slower enemy half a column ahead of `cex4e` (within one column). -/
def w4b : Enemy :=
  {sprite := "assets/img/enemy-bug.png", speed := 1, x := 3/2, y := 2, prevX := 0,
   visable := true, hitBox := true, laneOrder := 0}

/-- The convoy witness scene. -/
def w4env : EnemyEnvState := {baseEnv with others := [cex4e, w4b]}

/-- A player standing at cell (2, 2). -/
def cex6p : Player := {initPlayer with x := 2, y := 2}

/-- An enemy in the player's row exactly half a column to the right: on the
boundary of the claimed closed interval. -/
def cex6e : Enemy :=
  {sprite := "assets/img/enemy-bug.png", speed := 1, x := 5/2, y := 2, prevX := 0,
   visable := true, hitBox := false, laneOrder := 0}

/-- An enemy exactly on the player's cell (2, 2). -/
def w6e : Enemy :=
  {sprite := "assets/img/enemy-bug.png", speed := 1, x := 2, y := 2, prevX := 0,
   visable := true, hitBox := true, laneOrder := 0}

/-- The hit-flag witness scene: the player of `cex6p` shares cell (2, 2)
with `w6e`. -/
def w6env : EnemyEnvState := {baseEnv with player := cex6p, others := [w6e]}

/-- The ambient state the hit-flag witness's update produces. -/
def C6wEnv : EnemyEnvState := {w6env with hit := true}

/-- A visible speed-1 enemy of lane 2 at column 1 (start of the
monotonicity witness run). -/
def w7e : Enemy :=
  {sprite := "assets/img/enemy-bug.png", speed := 1, x := 1, y := 2, prevX := 0,
   visable := true, hitBox := true, laneOrder := 0}

/-- Two unit-time ticks of the monotonicity witness run. -/
def w7t : Tick := {dt := 1, r1 := 0, r2 := 0, r3 := 0, env := baseEnv}

/-- The enemy after the two visible ticks of the witness run. -/
def C7er : Enemy := {w7e with x := 3}

/-- The final tick of the monotonicity witness run: two seconds elapse, so
the enemy crosses column 5 and respawns. -/
def w7tf : Tick := {dt := 2, r1 := 0, r2 := 0, r3 := 0, env := baseEnv}

/-- A once-damaged collected cargo box at cell (3, 1). -/
def w1it : ItemState := {initBox with x := 3, y := 1, collected := true, ranOver := 1}

/-- A player standing on the goal cell (4, 0). -/
def w1p : Player := {initPlayer with x := 4, y := 0}

/-- The heart relocated to the player's start cell (2, 5). -/
def w10it : ItemState := {initHeart with x := 2, y := 5}

/-- The start player down to the last life. -/
def w5p : Player := {initPlayer with lives := 1}

/-- The destination cell of a one-step move request: one column or row away
from the player's current position in the given direction (the cell
`handleInput` is asked to move into). -/
def moveTarget (k : Dir) (p : Player) : ℚ × ℚ :=
  match k with
  | Dir.left => (p.x - 1, p.y)
  | Dir.right => (p.x + 1, p.y)
  | Dir.up => (p.x, p.y - 1)
  | Dir.down => (p.x, p.y + 1)
  | Dir.none => (p.x, p.y)

/-! ### Helper lemmas -/

theorem getRandomInt_bounds (lo hi : ℤ) (r : ℕ) (h : lo < hi) :
    lo ≤ getRandomInt lo hi r ∧ getRandomInt lo hi r < hi := by
  unfold getRandomInt
  rw [if_neg (by omega)]
  have h2 := Int.emod_nonneg (r : ℤ) (by omega : hi - lo ≠ 0)
  have h3 := Int.emod_lt_of_pos (r : ℤ) (by omega : (0 : ℤ) < hi - lo)
  omega

theorem getRandomInt_attain (lo hi v : ℤ) (h1 : lo ≤ v) (h2 : v < hi) :
    ∃ r : ℕ, getRandomInt lo hi r = v := by
  refine ⟨(v - lo).toNat, ?_⟩
  unfold getRandomInt
  rw [if_neg (by omega)]
  have hc : (((v - lo).toNat : ℕ) : ℤ) = v - lo := Int.toNat_of_nonneg (by omega)
  rw [hc, Int.emod_eq_of_lt (by omega) (by omega)]
  omega

theorem checkLevel_level_eq (pts : ℤ) (p : Player) (h : pts < 10000) :
    (Player.checkLevel pts p).level = if pts < 1000 then 1 else pts / 1000 + 1 := by
  unfold Player.checkLevel
  split_ifs <;> simp_all <;> omega

theorem checkLevel_moveSpeed_eq (pts : ℤ) (p : Player) (h1 : 1000 ≤ pts) (h2 : pts < 10000) :
    (Player.checkLevel pts p).moveSpeed = pts / 1000 + 5 := by
  unfold Player.checkLevel
  split_ifs <;> simp_all <;> omega

/-- C2: `Player.checkLevel` computes the level as a pure, monotone,
non-decreasing step function of the cumulative score over the bands
`[0, 1000, ..., 9000]`: level 1 below 1000 points, level `n` on the band
`[(n-1)·1000, n·1000)` for `n` in 2..10, with move speed `4 + n` for every
level `n ≥ 2`; in particular score 2500 gives level 3 and speed 7. -/
theorem C2_checkLevel_step (n pts qts : ℤ) (p q : Player)
    (hn1 : 1 ≤ n) (hn10 : n ≤ 10)
    (hlo : n = 1 ∨ 1000 * (n - 1) ≤ pts) (hhi : pts < 1000 * n)
    (hle : pts ≤ qts) (hq : qts < 10000) :
    (Player.checkLevel pts p).level = n ∧
    (2 ≤ n → (Player.checkLevel pts p).moveSpeed = 4 + n) ∧
    (Player.checkLevel pts p).level ≤ (Player.checkLevel qts q).level ∧
    (Player.checkLevel 2500 p).level = 3 ∧ (Player.checkLevel 2500 p).moveSpeed = 7 := by
  have hp10 : pts < 10000 := by omega
  have hl := checkLevel_level_eq pts p hp10
  have hlq := checkLevel_level_eq qts q hq
  refine ⟨?_, ?_, ?_, ?_, ?_⟩
  · rw [hl]; split_ifs <;> omega
  · intro hn2
    have h1000 : 1000 ≤ pts := by omega
    rw [checkLevel_moveSpeed_eq pts p h1000 hp10]
    rw [hl] at *
    split_ifs at * <;> omega
  · rw [hl, hlq]; split_ifs <;> omega
  · rw [checkLevel_level_eq 2500 p (by norm_num)]; norm_num
  · rw [checkLevel_moveSpeed_eq 2500 p (by norm_num) (by norm_num)]; norm_num

/-- C2 witness: the concrete score 2500 lands in the level-3 band. -/
theorem C2_checkLevel_step_witness :
    (Player.checkLevel 2500 initPlayer).level = 3 ∧
    (Player.checkLevel 2500 initPlayer).moveSpeed = 7 := by
  have h := C2_checkLevel_step 3 2500 2500 initPlayer initPlayer (by norm_num)
    (by norm_num) (Or.inr (by norm_num)) (by norm_num) (by norm_num) (by norm_num)
  exact ⟨h.2.2.2.1, h.2.2.2.2⟩


theorem mem_excludeCandidates (lo hi : ℤ) (excl : List ℤ) (v : ℤ) :
    v ∈ ((List.range (hi - lo + 1).toNat).map (fun i : ℕ => lo + (i : ℤ))).filter
        (fun w => !excl.contains w) ↔ (lo ≤ v ∧ v ≤ hi ∧ v ∉ excl) := by
  rw [List.mem_filter]
  constructor
  · rintro ⟨hin, hex⟩
    obtain ⟨i, hir, hvi⟩ := List.mem_map.mp hin
    rw [List.mem_range] at hir
    subst hvi
    exact ⟨by omega, by omega, by simpa using hex⟩
  · rintro ⟨h1, h2, h3⟩
    refine ⟨List.mem_map.mpr ⟨(v - lo).toNat, List.mem_range.mpr (by omega), by omega⟩,
      by simpa using h3⟩

theorem excludeMultiple_some_spec (lo hi : ℤ) (excl : List ℤ) (r : ℕ) (c : ℤ)
    (h : getRandomIntExcludeMultiple lo hi excl r = some c) :
    lo ≤ c ∧ c ≤ hi ∧ c ∉ excl := by
  unfold getRandomIntExcludeMultiple at h
  exact (mem_excludeCandidates lo hi excl c).mp (List.get?_mem h)

theorem excludeMultiple_none_iff (lo hi : ℤ) (excl : List ℤ) (r : ℕ) :
    getRandomIntExcludeMultiple lo hi excl r = none ↔
      ∀ v : ℤ, lo ≤ v → v ≤ hi → v ∈ excl := by
  unfold getRandomIntExcludeMultiple
  constructor
  · intro h v h1 h2
    by_contra h3
    have hm := (mem_excludeCandidates lo hi excl v).mpr ⟨h1, h2, h3⟩
    have hl := List.length_pos.mpr (List.ne_nil_of_mem hm)
    rw [List.get?_eq_none] at h
    have := Nat.mod_lt r hl
    omega
  · intro hall
    have hnil : ((List.range (hi - lo + 1).toNat).map (fun i : ℕ => lo + (i : ℤ))).filter
        (fun w => !excl.contains w) = [] := by
      by_contra hne
      obtain ⟨v, hv⟩ := List.exists_mem_of_ne_nil _ hne
      have hc := (mem_excludeCandidates lo hi excl v).mp hv
      exact hc.2.2 (hall v hc.1 hc.2.1)
    rw [hnil]
    rfl

theorem excludeMultiple_attain (lo hi : ℤ) (excl : List ℤ) (v : ℤ)
    (h1 : lo ≤ v) (h2 : v ≤ hi) (h3 : v ∉ excl) :
    ∃ r : ℕ, getRandomIntExcludeMultiple lo hi excl r = some v := by
  have hm := (mem_excludeCandidates lo hi excl v).mpr ⟨h1, h2, h3⟩
  obtain ⟨i, hget⟩ := List.mem_iff_get?.mp hm
  refine ⟨i, ?_⟩
  unfold getRandomIntExcludeMultiple
  have hlt : i < (((List.range (hi - lo + 1).toNat).map (fun i : ℕ => lo + (i : ℤ))).filter
      (fun w => !excl.contains w)).length := by
    rcases List.get?_eq_some.mp hget with ⟨hl, _⟩
    exact hl
  dsimp only
  rw [Nat.mod_eq_of_lt hlt]
  exact hget

/-- C9: `getRandomIntExcludeMultiple(min, max, excludedSet)` returns a
uniformly chosen element of the candidate list `[min, max]` minus the
excluded values whenever that list is non-empty (each such element is the
result for some draw, and every result is such an element), and fails —
returns `none`, the embedded JS `undefined` — exactly when the exclusion
set covers the entire candidate range. -/
theorem C9_excludeMultiple_contract (lo hi : ℤ) (excl : List ℤ) (r : ℕ) :
    (getRandomIntExcludeMultiple lo hi excl r = none ↔
      ∀ v : ℤ, lo ≤ v → v ≤ hi → v ∈ excl) ∧
    (∀ c : ℤ, getRandomIntExcludeMultiple lo hi excl r = some c →
      lo ≤ c ∧ c ≤ hi ∧ c ∉ excl) ∧
    (∀ v : ℤ, lo ≤ v → v ≤ hi → v ∉ excl →
      ∃ r' : ℕ, getRandomIntExcludeMultiple lo hi excl r' = some v) := by
  exact ⟨excludeMultiple_none_iff lo hi excl r,
    fun c hc => excludeMultiple_some_spec lo hi excl r c hc,
    fun v h1 h2 h3 => excludeMultiple_attain lo hi excl v h1 h2 h3⟩

/-- C8: for every direction, `Player.handleInput` leaves the player's
entire state unchanged whenever the player is already mid-move, or (for a
well-formed resting player standing on an integer on-board cell) the
destination cell is occupied by a rock or the one-step move would leave
the board bounds (columns 0..4, rows 0..5).  The rejection is silent: the
function simply returns the unchanged record. -/
theorem C8_handleInput_reject (k : Dir) (now : ℕ) (rocks : List Rock) (p : Player)
    (h : p.moving = true ∨
      ((∃ a : ℤ, p.x = (a : ℚ) ∧ 0 ≤ a ∧ a ≤ 4) ∧
       (∃ b : ℤ, p.y = (b : ℚ) ∧ 0 ≤ b ∧ b ≤ 5) ∧
       (rocks.any (fun rock => rock.x = (moveTarget k p).1 ∧ rock.y = (moveTarget k p).2) = true ∨
        (moveTarget k p).1 < 0 ∨ 4 < (moveTarget k p).1 ∨
        (moveTarget k p).2 < 0 ∨ 5 < (moveTarget k p).2))) :
    Player.handleInput k now rocks p = p := by
  rcases h with hmv | ⟨⟨a, hax, ha0, ha4⟩, ⟨b, hby, hb0, hb5⟩, hrej⟩
  · cases k <;> simp [Player.handleInput, hmv]
  · cases k with
    | none => rfl
    | left =>
      simp only [Player.handleInput]
      rw [if_neg]
      rintro ⟨hobs, hx, hmv⟩
      simp only [moveTarget] at hrej
      rcases hrej with hrock | hb1 | hb2 | hb3 | hb4
      · rw [List.any_eq_true] at hrock
        obtain ⟨rock, hrm, hcond⟩ := hrock
        have : rocks.any (fun rock => rock.y = p.y ∧ rock.x = p.x - 1) = true := by
          rw [List.any_eq_true]
          refine ⟨rock, hrm, ?_⟩
          rw [decide_eq_true_iff] at hcond ⊢
          exact ⟨hcond.2, hcond.1⟩
        rw [this] at hobs
        cases hobs
      · rw [hax] at hb1 hx
        have : (0 : ℚ) < a := hx
        have h1 : 0 < a := by exact_mod_cast this
        have h2 : (a : ℚ) - 1 < 0 := hb1
        have h4 : ((a - 1 : ℤ) : ℚ) < 0 := by push_cast; linarith
        have : a - 1 < 0 := by exact_mod_cast h4
        omega
      · rw [hax] at hb2
        have : (4 : ℚ) < a - 1 := by linarith
        have : (4 : ℤ) < a - 1 := by exact_mod_cast this
        omega
      · rw [hby] at hb3
        have : (b : ℚ) < 0 := hb3
        have : b < 0 := by exact_mod_cast this
        omega
      · rw [hby] at hb4
        have : (5 : ℚ) < b := hb4
        have : (5 : ℤ) < b := by exact_mod_cast this
        omega
    | right =>
      simp only [Player.handleInput]
      rw [if_neg]
      rintro ⟨hobs, hx, hmv⟩
      simp only [moveTarget] at hrej
      rcases hrej with hrock | hb1 | hb2 | hb3 | hb4
      · rw [List.any_eq_true] at hrock
        obtain ⟨rock, hrm, hcond⟩ := hrock
        have : rocks.any (fun rock => rock.y = p.y ∧ rock.x = p.x + 1) = true := by
          rw [List.any_eq_true]
          refine ⟨rock, hrm, ?_⟩
          rw [decide_eq_true_iff] at hcond ⊢
          exact ⟨hcond.2, hcond.1⟩
        rw [this] at hobs
        cases hobs
      · rw [hax] at hb1
        have : (a : ℚ) + 1 < 0 := hb1
        have : a + 1 < 0 := by exact_mod_cast this
        omega
      · rw [hax] at hb2 hx
        have h1 : (a : ℚ) < 4 := hx
        have h2 : a < 4 := by exact_mod_cast h1
        have h3 : (4 : ℚ) < a + 1 := hb2
        have : (4 : ℤ) < a + 1 := by exact_mod_cast h3
        omega
      · rw [hby] at hb3
        have : (b : ℚ) < 0 := hb3
        have : b < 0 := by exact_mod_cast this
        omega
      · rw [hby] at hb4
        have : (5 : ℚ) < b := hb4
        have : (5 : ℤ) < b := by exact_mod_cast this
        omega
    | up =>
      simp only [Player.handleInput]
      rw [if_neg]
      rintro ⟨hobs, hy, hmv⟩
      simp only [moveTarget] at hrej
      rcases hrej with hrock | hb1 | hb2 | hb3 | hb4
      · rw [List.any_eq_true] at hrock
        obtain ⟨rock, hrm, hcond⟩ := hrock
        have : rocks.any (fun rock => rock.x = p.x ∧ rock.y = p.y - 1) = true := by
          rw [List.any_eq_true]
          refine ⟨rock, hrm, ?_⟩
          rw [decide_eq_true_iff] at hcond ⊢
          exact ⟨hcond.1, hcond.2⟩
        rw [this] at hobs
        cases hobs
      · rw [hax] at hb1
        have : (a : ℚ) < 0 := hb1
        have : a < 0 := by exact_mod_cast this
        omega
      · rw [hax] at hb2
        have : (4 : ℚ) < a := hb2
        have : (4 : ℤ) < a := by exact_mod_cast this
        omega
      · rw [hby] at hb3 hy
        have h1 : (0 : ℚ) < b := hy
        have h2 : (0 : ℤ) < b := by exact_mod_cast h1
        have h3 : (b : ℚ) - 1 < 0 := hb3
        have h4 : ((b - 1 : ℤ) : ℚ) < 0 := by push_cast; linarith
        have : b - 1 < 0 := by exact_mod_cast h4
        omega
      · rw [hby] at hb4
        have : (5 : ℚ) < b - 1 := by linarith
        have : (5 : ℤ) < b - 1 := by exact_mod_cast this
        omega
    | down =>
      simp only [Player.handleInput]
      rw [if_neg]
      rintro ⟨hobs, hy, hmv⟩
      simp only [moveTarget] at hrej
      rcases hrej with hrock | hb1 | hb2 | hb3 | hb4
      · rw [List.any_eq_true] at hrock
        obtain ⟨rock, hrm, hcond⟩ := hrock
        have : rocks.any (fun rock => rock.x = p.x ∧ rock.y = p.y + 1) = true := by
          rw [List.any_eq_true]
          refine ⟨rock, hrm, ?_⟩
          rw [decide_eq_true_iff] at hcond ⊢
          exact ⟨hcond.1, hcond.2⟩
        rw [this] at hobs
        cases hobs
      · rw [hax] at hb1
        have : (a : ℚ) < 0 := hb1
        have : a < 0 := by exact_mod_cast this
        omega
      · rw [hax] at hb2
        have : (4 : ℚ) < a := hb2
        have : (4 : ℤ) < a := by exact_mod_cast this
        omega
      · rw [hby] at hb3
        have : (b : ℚ) + 1 < 0 := hb3
        have : b + 1 < 0 := by exact_mod_cast this
        omega
      · rw [hby] at hb4 hy
        have h1 : (b : ℚ) < 5 := hy
        have h2 : b < 5 := by exact_mod_cast h1
        have h3 : (5 : ℚ) < b + 1 := hb4
        have : (5 : ℤ) < b + 1 := by exact_mod_cast h3
        omega

/-- C8 witness: a resting player at the home cell (2, 5) asking to move
down (off the bottom edge) is left exactly as it was. -/
theorem C8_handleInput_reject_witness :
    Player.handleInput Dir.down 0 [] initPlayer = initPlayer := by
  apply C8_handleInput_reject
  refine Or.inr ⟨⟨2, by norm_num [initPlayer]⟩, ⟨5, by norm_num [initPlayer]⟩, ?_⟩
  right; right; right; right
  norm_num [moveTarget, initPlayer]

theorem checkLevel_preserves (points : ℤ) (p : Player) :
    (Player.checkLevel points p).x = p.x ∧ (Player.checkLevel points p).y = p.y ∧
    (Player.checkLevel points p).moveX = p.moveX ∧
    (Player.checkLevel points p).moveY = p.moveY ∧
    (Player.checkLevel points p).lives = p.lives := by
  refine ⟨?_, ?_, ?_, ?_, ?_⟩
  · simp only [Player.checkLevel, apply_ite (fun q : Player => q.x), ite_self]
  · simp only [Player.checkLevel, apply_ite (fun q : Player => q.y), ite_self]
  · simp only [Player.checkLevel, apply_ite (fun q : Player => q.moveX), ite_self]
  · simp only [Player.checkLevel, apply_ite (fun q : Player => q.moveY), ite_self]
  · simp only [Player.checkLevel, apply_ite (fun q : Player => q.lives), ite_self]

/-- C5: when the global hit flag is set and the player holds exactly one
life, `Player.update` resets lives to 3, relocates the player to the home
cell (2, 5) with the target cell equal to the position, clears the hit
flag, raises the game-over flag, and resets the cargo box to a random
in-lane cell with damage counter 0. -/
theorem C5_last_life_reset (dt : ℚ) (r1 rbx rby : ℕ) (p : Player) (go : Bool)
    (box : ItemState) (points : ℤ) (hl : p.lives = 1) :
    (Player.update dt r1 rbx rby p true go box points).1.lives = 3 ∧
    (Player.update dt r1 rbx rby p true go box points).1.x = 2 ∧
    (Player.update dt r1 rbx rby p true go box points).1.y = 5 ∧
    (Player.update dt r1 rbx rby p true go box points).1.moveX = 2 ∧
    (Player.update dt r1 rbx rby p true go box points).1.moveY = 5 ∧
    (Player.update dt r1 rbx rby p true go box points).2.1 = false ∧
    (Player.update dt r1 rbx rby p true go box points).2.2.1 = true ∧
    (Player.update dt r1 rbx rby p true go box points).2.2.2.ranOver = 0 ∧
    (Player.update dt r1 rbx rby p true go box points).2.2.2.x = (getRandomInt 0 5 rbx : ℚ) ∧
    (0 : ℚ) ≤ (Player.update dt r1 rbx rby p true go box points).2.2.2.x ∧
    (Player.update dt r1 rbx rby p true go box points).2.2.2.x ≤ 4 ∧
    (Player.update dt r1 rbx rby p true go box points).2.2.2.y = (getRandomInt 1 4 rby : ℚ) ∧
    (1 : ℚ) ≤ (Player.update dt r1 rbx rby p true go box points).2.2.2.y ∧
    (Player.update dt r1 rbx rby p true go box points).2.2.2.y ≤ 3 := by
  have hbx := getRandomInt_bounds 0 5 rbx (by norm_num)
  have hby := getRandomInt_bounds 1 4 rby (by norm_num)
  have hmp : Player.movePhase dt p true = p := by
    unfold Player.movePhase
    rw [if_neg (by simp)]
  have hpres := checkLevel_preserves points
    {p with x := 2, y := 5, moveX := 2, moveY := 5, lives := 3}
  unfold Player.update
  dsimp only
  rw [hmp]
  unfold Player.hitPhase
  rw [if_pos rfl, if_neg (by omega : ¬(1 < p.lives))]
  refine ⟨?_, ?_, ?_, ?_, ?_, rfl, rfl, rfl, rfl, ?_, ?_, rfl, ?_, ?_⟩
  · exact hpres.2.2.2.2
  · exact hpres.1
  · exact hpres.2.1
  · exact hpres.2.2.1
  · exact hpres.2.2.2.1
  · dsimp only
    exact_mod_cast hbx.1
  · dsimp only
    exact_mod_cast (by omega : getRandomInt 0 5 rbx ≤ 4)
  · dsimp only
    exact_mod_cast hby.1
  · dsimp only
    exact_mod_cast (by omega : getRandomInt 1 4 rby ≤ 3)

/-- C5 witness: the start player reduced to one life, hit on a tick. -/
theorem C5_last_life_reset_witness :
    (Player.update 0 0 0 0 w5p true false initBox 0).1.lives = 3 ∧
    (Player.update 0 0 0 0 w5p true false initBox 0).1.x = 2 ∧
    (Player.update 0 0 0 0 w5p true false initBox 0).2.1 = false ∧
    (Player.update 0 0 0 0 w5p true false initBox 0).2.2.1 = true ∧
    (Player.update 0 0 0 0 w5p true false initBox 0).2.2.2.ranOver = 0 := by
  have h := C5_last_life_reset 0 0 0 0 w5p false initBox 0 (by norm_num [w5p, initPlayer])
  exact ⟨h.1, h.2.1, h.2.2.2.2.2.1, h.2.2.2.2.2.2.1, h.2.2.2.2.2.2.2.1⟩

theorem afterPickup_type (it : ItemState) (p : Player) (hit : Bool) (rx ry : ℕ) :
    (Item.afterPickup it p hit rx ry).type = it.type := by
  unfold Item.afterPickup Item.pickUp Item.dropOnHit
  split_ifs <;> rfl

theorem afterPickup_ranOver (it : ItemState) (p : Player) (hit : Bool) (rx ry : ℕ) :
    (Item.afterPickup it p hit rx ry).ranOver = it.ranOver := by
  unfold Item.afterPickup Item.pickUp Item.dropOnHit
  split_ifs <;> rfl

theorem itemUpdate_deliver (it : ItemState) (p : Player) (goal : GoalState)
    (rocks : List Rock) (enemies : List Enemy) (gl : Globals) (rnd : ItemRand) (now : ℕ)
    (htype : it.type = "indiebox")
    (hcol : (Item.afterPickup it p gl.hit rnd.dropX rnd.dropY).collected = true)
    (hgx : p.x = goal.x) (hgy : p.y = goal.y) :
    Item.update it p goal rocks enemies gl rnd now =
      ({Item.afterPickup it p gl.hit rnd.dropX rnd.dropY with
          sprite := "assets/img/gem-blue.png", collected := false, ranOver := 0,
          x := (getRandomInt 0 5 rnd.delX : ℚ), y := (getRandomInt 1 4 rnd.delY : ℚ)},
       {p with deliveries := p.deliveries ++ [⟨now, p.x, p.y⟩]},
       rocks.mapIdx (fun i rock => {rock with x := (getRandomInt 0 5 (rnd.rock i) : ℚ)}),
       enemies,
       {gl with goalReached := true, points := gl.points +
          (if (Item.afterPickup it p gl.hit rnd.dropX rnd.dropY).ranOver = 0 then 100
           else if (Item.afterPickup it p gl.hit rnd.dropX rnd.dropY).ranOver = 1 then 50
           else if (Item.afterPickup it p gl.hit rnd.dropX rnd.dropY).ranOver = 2 then 25
           else 0)}) := by
  have hne := eq_false (by decide : ¬(("indiebox" : String) = "heart"))
  have h01 := eq_false (by norm_num : ¬((0 : ℤ) = 1))
  have h02 := eq_false (by norm_num : ¬((0 : ℤ) = 2))
  have h03 := eq_false (by norm_num : ¬((0 : ℤ) = 3))
  unfold Item.update
  simp only [hcol, afterPickup_type, htype, Player.reachesGoal, hgx, hgy,
    eq_self_iff_true, and_self, and_true, true_and, if_true, hne, h01, h02, h03,
    false_and, if_false]

/-- C1: on a tick in which the collected cargo box occupies the goal cell
during `Item.update` (the box, having followed the player, sits on the
goal), the score increases by exactly 100, 50 or 25 points according to
the damage counter being 0, 1 or 2 at the moment of delivery, and the
damage counter is 0 immediately after the update. -/
theorem C1_delivery_scoring (it : ItemState) (p : Player) (goal : GoalState)
    (rocks : List Rock) (enemies : List Enemy) (gl : Globals) (rnd : ItemRand) (now : ℕ)
    (htype : it.type = "indiebox")
    (hcol : (Item.afterPickup it p gl.hit rnd.dropX rnd.dropY).collected = true)
    (hgx : p.x = goal.x) (hgy : p.y = goal.y) :
    (Item.update it p goal rocks enemies gl rnd now).1.ranOver = 0 ∧
    (it.ranOver = 0 →
      (Item.update it p goal rocks enemies gl rnd now).2.2.2.2.points = gl.points + 100) ∧
    (it.ranOver = 1 →
      (Item.update it p goal rocks enemies gl rnd now).2.2.2.2.points = gl.points + 50) ∧
    (it.ranOver = 2 →
      (Item.update it p goal rocks enemies gl rnd now).2.2.2.2.points = gl.points + 25) := by
  have h2r := afterPickup_ranOver it p gl.hit rnd.dropX rnd.dropY
  rw [itemUpdate_deliver it p goal rocks enemies gl rnd now htype hcol hgx hgy]
  dsimp only
  rw [h2r]
  refine ⟨rfl, ?_, ?_, ?_⟩
  · intro h
    rw [h, if_pos rfl]
  · intro h
    rw [h, if_neg (by norm_num), if_pos rfl]
  · intro h
    rw [h, if_neg (by norm_num), if_neg (by norm_num), if_pos rfl]

/-- C1 witness: a once-damaged collected box is delivered at the goal cell
(4, 0) for 50 points, and its damage counter resets. -/
theorem C1_delivery_scoring_witness :
    (Item.update w1it w1p wGoal [] [] wGlobals wRand 0).1.ranOver = 0 ∧
    (Item.update w1it w1p wGoal [] [] wGlobals wRand 0).2.2.2.2.points =
      wGlobals.points + 50 := by
  have h := C1_delivery_scoring w1it w1p wGoal [] [] wGlobals wRand 0
    (by decide) (by decide) (by decide) (by decide)
  exact ⟨h.1, h.2.2.1 (by decide)⟩

theorem afterPickup_heart (it : ItemState) (p : Player) (hit : Bool) (rx ry : ℕ)
    (htype : it.type = "heart") (hx : it.x = p.x) (hy : it.y = p.y) :
    Item.afterPickup it p hit rx ry = {it with collected := true} := by
  unfold Item.afterPickup Item.dropOnHit
  rw [if_neg (by rintro ⟨-, -, hc⟩; rw [htype] at hc; exact absurd hc (by decide))]
  unfold Item.pickUp Player.collects
  rw [if_pos (⟨hx, hy⟩ : it.x = p.x ∧ it.y = p.y)]
  rw [if_pos (rfl : (true : Bool) = true)]

/-- C10: whenever the player occupies the bonus heart's cell, `Item.update`
increments the player's lives by exactly one; no bound is enforced, so the
lives after the update exceed any `n` not above the current lives — lives
are unbounded above across repeated collections. -/
theorem C10_heart_lives_unbounded (n : ℤ) (it : ItemState) (p : Player) (goal : GoalState)
    (rocks : List Rock) (enemies : List Enemy) (gl : Globals) (rnd : ItemRand) (now : ℕ)
    (htype : it.type = "heart") (hx : it.x = p.x) (hy : it.y = p.y)
    (hn : n ≤ p.lives) :
    (Item.update it p goal rocks enemies gl rnd now).2.1.lives = p.lives + 1 ∧
    n < (Item.update it p goal rocks enemies gl rnd now).2.1.lives := by
  have hni := eq_false (by decide : ¬(("heart" : String) = "indiebox"))
  have hlives : (Item.update it p goal rocks enemies gl rnd now).2.1.lives = p.lives + 1 := by
    unfold Item.update
    rw [afterPickup_heart it p gl.hit rnd.dropX rnd.dropY htype hx hy]
    simp only [htype, hni, eq_self_iff_true, if_true, if_false]
  exact ⟨hlives, by rw [hlives]; omega⟩

/-- C10 witness: collecting the heart at the start cell raises the start
player's three lives to four, past the bound three. -/
theorem C10_heart_lives_unbounded_witness :
    (Item.update w10it initPlayer wGoal [] [] wGlobals wRand 0).2.1.lives =
      initPlayer.lives + 1 ∧
    3 < (Item.update w10it initPlayer wGoal [] [] wGlobals wRand 0).2.1.lives :=
  C10_heart_lives_unbounded 3 w10it initPlayer wGoal [] [] wGlobals wRand 0
    (by decide) (by decide) (by decide) (by decide)

theorem hitPhase_snd_hit (e : Enemy) (env : EnemyEnvState) :
    ((Enemy.hitPhase e env).2).hit = (env.hit || Player.intersects env.player e) := by
  unfold Enemy.hitPhase
  dsimp only
  split_ifs with h1 h2 <;> simp_all

theorem hitPhase_fst (e : Enemy) (env : EnemyEnvState) :
    ((Enemy.hitPhase e env).1).x = e.x ∧ ((Enemy.hitPhase e env).1).y = e.y ∧
    ((Enemy.hitPhase e env).1).speed = e.speed ∧
    ((Enemy.hitPhase e env).1).visable = e.visable := by
  unfold Enemy.hitPhase
  dsimp only
  split_ifs <;> exact ⟨rfl, rfl, rfl, rfl⟩

theorem intersects_hitPhase (q : Player) (e : Enemy) (env : EnemyEnvState) :
    Player.intersects q ((Enemy.hitPhase e env).1) = Player.intersects q e := by
  unfold Enemy.hitPhase
  dsimp only
  split_ifs <;> rfl

theorem queueStep_env (e : Enemy) (env : EnemyEnvState) :
    (Enemy.queueStep e env).2.2.hit = env.hit ∧
    (Enemy.queueStep e env).2.2.player = env.player ∧
    (Enemy.queueStep e env).2.2.box = env.box ∧
    ((Enemy.queueStep e env).2.1).x = e.x ∧ ((Enemy.queueStep e env).2.1).y = e.y ∧
    ((Enemy.queueStep e env).2.1).speed = e.speed ∧
    ((Enemy.queueStep e env).2.1).visable = e.visable := by
  unfold Enemy.queueStep
  dsimp only
  split_ifs <;> exact ⟨rfl, rfl, rfl, rfl, rfl, rfl, rfl⟩

theorem update_destruct (dt : ℚ) (r1 r2 r3 : ℕ) (e0 : Enemy) (env : EnemyEnvState)
    (e' : Enemy) (env' : EnemyEnvState)
    (h : Enemy.update dt r1 r2 r3 e0 env = some (e', env')) :
    ∃ e2 env1, Enemy.hitPhase e2 env1 = (e', env') ∧ env1.hit = env.hit ∧
      env1.player = env.player ∧ env1.box = env.box := by
  unfold Enemy.update at h
  dsimp only at h
  split_ifs at h with h1 h2
  · exact ⟨_, _, Option.some.inj h, rfl, rfl, rfl⟩
  · rcases hm : getRandomIntExcludeMultiple 1 5
        (env.queues.getD (getRandomInt 1 4 r1 - 1).toNat []) r2 with _ | c
    · rw [hm] at h
      cases h
    · rw [hm] at h
      exact ⟨_, _, Option.some.inj h, rfl, rfl, rfl⟩
  · have hq := queueStep_env {e0 with x := e0.x + dt * (e0.speed : ℚ)} env
    exact ⟨_, _, Option.some.inj h, hq.1, hq.2.1, hq.2.2.1⟩
  · have hq := queueStep_env {e0 with x := e0.x + dt * (e0.speed : ℚ)} env
    exact ⟨_, _, Option.some.inj h, hq.1, hq.2.1, hq.2.2.1⟩

/-- C6 (amended): `Player.intersects(enemy)` returns true iff the enemy's
row equals the player's row and the enemy's column lies strictly within
the open interval `(playerX - 0.5, playerX + 0.5)` (the source compares
with strict inequalities, so the half-column boundary itself does not
intersect); and on every `Enemy.update` tick the global hit flag ends up
set iff it was already set or the updated enemy intersects the player. -/
theorem C6_intersects_hit (p : Player) (dt : ℚ) (r1 r2 r3 : ℕ) (e : Enemy)
    (env : EnemyEnvState) (e' : Enemy) (env' : EnemyEnvState)
    (hupd : Enemy.update dt r1 r2 r3 e env = some (e', env')) :
    (Player.intersects p e = true ↔
      ((e.y : ℚ) = p.y ∧ p.x - 1/2 < e.x ∧ e.x < p.x + 1/2)) ∧
    env'.hit = (env.hit || Player.intersects env.player e') := by
  constructor
  · unfold Player.intersects
    split_ifs with h1 h2
    · simp only [true_iff]
      exact ⟨h1, h2⟩
    · simp only [Bool.false_eq_true, false_iff]
      rintro ⟨-, hb⟩
      exact h2 hb
    · simp only [Bool.false_eq_true, false_iff]
      rintro ⟨hy, -⟩
      exact h1 hy
  · obtain ⟨e2, env1, hpair, hh, hp, hb⟩ := update_destruct dt r1 r2 r3 e env e' env' hupd
    have h1 : env' = (Enemy.hitPhase e2 env1).2 := by rw [hpair]
    have h2 : e' = (Enemy.hitPhase e2 env1).1 := by rw [hpair]
    rw [h1, hitPhase_snd_hit, hh, hp, h2, intersects_hitPhase]

/-- C6 counterexample: at the exact half-column boundary the claimed
closed interval `[playerX - 0.5, playerX + 0.5]` contains the enemy, yet
`intersects` is false. -/
theorem C6_boundary_counterexample :
    Player.intersects cex6p cex6e = false ∧ (cex6e.y : ℚ) = cex6p.y ∧
    cex6p.x - 1/2 ≤ cex6e.x ∧ cex6e.x ≤ cex6p.x + 1/2 := by
  norm_num [Player.intersects, cex6p, cex6e, initPlayer]

theorem C6_witness_eval : Enemy.update 0 0 0 0 w6e w6env = some (w6e, C6wEnv) := by
  norm_num [Enemy.update, Enemy.hitPhase, Enemy.queueStep, Enemy.convoySpeed,
    Player.intersects, w6e, w6env, C6wEnv, baseEnv, cex6p, initPlayer, initBox]

/-- C6 witness: an enemy standing on the player's cell during its update
tick sets the global hit flag. -/
theorem C6_intersects_hit_witness :
    (Player.intersects w6env.player w6e = true ↔
      ((w6e.y : ℚ) = w6env.player.y ∧
       w6env.player.x - 1/2 < w6e.x ∧ w6e.x < w6env.player.x + 1/2)) ∧
    C6wEnv.hit = (w6env.hit || Player.intersects w6env.player w6e) :=
  C6_intersects_hit w6env.player 0 0 0 0 w6e w6env w6e C6wEnv C6_witness_eval

theorem hitPhase_fst_hitBox (e : Enemy) (env : EnemyEnvState)
    (h : ¬((e.y : ℚ) = env.box.y ∧ e.hitBox = false ∧
        env.box.x - 1/2 < e.x ∧ e.x < env.box.x + 1/2)) :
    ((Enemy.hitPhase e env).1).hitBox = e.hitBox := by
  unfold Enemy.hitPhase
  dsimp only
  rw [if_neg h]

theorem respawn_core (dt : ℚ) (r1 r2 r3 : ℕ) (e : Enemy) (env : EnemyEnvState)
    (e' : Enemy) (env' : EnemyEnvState)
    (hvis : e.visable = true) (hx : (5 : ℚ) ≤ e.x + dt * (e.speed : ℚ))
    (hupd : Enemy.update dt r1 r2 r3 e env = some (e', env')) :
    e'.visable = false ∧ e'.y = getRandomInt 1 4 r1 ∧ e'.speed = getRandomInt 1 4 r3 ∧
    ((0 : ℚ) ≤ env.box.x → e'.hitBox = false) ∧
    ∃ c : ℤ, getRandomIntExcludeMultiple 1 5
        (env.queues.getD (getRandomInt 1 4 r1 - 1).toNat []) r2 = some c ∧
      e'.x = -(c : ℚ) := by
  unfold Enemy.update at hupd
  dsimp only at hupd
  split_ifs at hupd with h1 h2
  · rw [hvis] at h1
    exact absurd h1.2 (by decide)
  · rcases hm : getRandomIntExcludeMultiple 1 5
        (env.queues.getD (getRandomInt 1 4 r1 - 1).toNat []) r2 with _ | c
    · rw [hm] at hupd
      cases hupd
    · rw [hm] at hupd
      have hcb := excludeMultiple_some_spec 1 5 _ r2 c hm
      have hpair := Option.some.inj hupd
      have hfst := congrArg Prod.fst hpair
      dsimp only at hfst
      rw [← hfst]
      refine ⟨((hitPhase_fst _ _).2.2.2).trans rfl, ((hitPhase_fst _ _).2.1).trans rfl,
        ((hitPhase_fst _ _).2.2.1).trans rfl, ?_, c, rfl, ((hitPhase_fst _ _).1).trans rfl⟩
      intro hbox
      rw [hitPhase_fst_hitBox]
      rintro ⟨-, -, hlt, -⟩
      have hc1 : (1 : ℚ) ≤ (c : ℚ) := by exact_mod_cast hcb.1
      dsimp only at hlt
      linarith
  · exact absurd ⟨hx, hvis⟩ h2
  · exact absurd ⟨hx, hvis⟩ h2

/-- C3 (amended): when a visible enemy's advanced column reaches 5,
`Enemy.update` performs the respawn transition — it marks the enemy
invisible, re-rolls its row uniformly in [1, 3] (every such row is a
possible draw), picks a new negative off-board column whose slot avoids
every currently-occupied off-board slot of the new lane, picks a new speed
uniformly in the integer range [1, 3] — not [1, 4]: the draw is
`getRandomInt(1, 4)`, whose upper bound is exclusive — and clears its
hit-box flag (the cargo box sitting on the board at a non-negative
column). -/
theorem C3_respawn_transition (dt : ℚ) (r1 r2 r3 : ℕ) (e : Enemy) (env : EnemyEnvState)
    (e' : Enemy) (env' : EnemyEnvState)
    (hvis : e.visable = true) (hx : (5 : ℚ) ≤ e.x + dt * (e.speed : ℚ))
    (hbox : (0 : ℚ) ≤ env.box.x)
    (hupd : Enemy.update dt r1 r2 r3 e env = some (e', env')) :
    e'.visable = false ∧
    1 ≤ e'.y ∧ e'.y ≤ 3 ∧
    (∀ v : ℤ, 1 ≤ v → v ≤ 3 → ∃ rr : ℕ, getRandomInt 1 4 rr = v) ∧
    e'.x < 0 ∧ (∀ s ∈ env.queues.getD (e'.y - 1).toNat [], e'.x ≠ -(s : ℚ)) ∧
    e'.speed = getRandomInt 1 4 r3 ∧ 1 ≤ e'.speed ∧ e'.speed ≤ 3 ∧
    e'.hitBox = false := by
  obtain ⟨hv, hy, hs, hb, c, hm, hxv⟩ :=
    respawn_core dt r1 r2 r3 e env e' env' hvis hx hupd
  have hyb := getRandomInt_bounds 1 4 r1 (by norm_num)
  have hsb := getRandomInt_bounds 1 4 r3 (by norm_num)
  have hcb := excludeMultiple_some_spec 1 5 _ r2 c hm
  have hc1 : (1 : ℚ) ≤ (c : ℚ) := by exact_mod_cast hcb.1
  refine ⟨hv, by omega, by omega, ?_, ?_, ?_, hs, by omega, by omega, hb hbox⟩
  · intro v h1 h2
    exact getRandomInt_attain 1 4 v h1 (by omega)
  · rw [hxv]
    linarith
  · intro s hsmem heq
    rw [hxv] at heq
    have hcs : c = s := by
      have : (c : ℚ) = (s : ℚ) := by linarith [neg_inj.mp heq]
      exact_mod_cast this
    rw [hy] at hsmem
    exact hcb.2.2 (hcs ▸ hsmem)

/-- C3 counterexample: the respawn speed draw `getRandomInt(1, 4)` attains
exactly the integers 1, 2, 3 over all oracle draws — the value 4 of the
claimed range [1, 4] is never produced. -/
theorem C3_speed_range_counterexample :
    {z : ℤ | ∃ rr : ℕ, getRandomInt 1 4 rr = z} = {1, 2, 3} ∧
    (4 : ℤ) ∉ ({1, 2, 3} : Set ℤ) := by
  constructor
  · ext z
    simp only [Set.mem_setOf_eq, Set.mem_insert_iff, Set.mem_singleton_iff]
    constructor
    · rintro ⟨rr, hr⟩
      unfold getRandomInt at hr
      rw [if_neg (by norm_num)] at hr
      norm_num at hr
      omega
    · rintro (rfl | rfl | rfl)
      exacts [⟨0, by decide⟩, ⟨1, by decide⟩, ⟨2, by decide⟩]
  · norm_num

theorem C3_witness_eval : Enemy.update 0 0 0 0 w3e baseEnv = some (C3wE, C3wEnv) := by
  have h1 : getRandomInt 1 4 0 = 1 := by decide
  have h2 : getRandomIntExcludeMultiple 1 5 ([] : List ℤ) 0 = some 1 := by decide
  norm_num [Enemy.update, Enemy.hitPhase, Enemy.queueStep, Enemy.convoySpeed,
    Player.intersects, jsSplice, listModify, h1, h2, w3e, baseEnv, C3wE, C3wEnv,
    initPlayer, initBox, List.getD]

/-- C3 witness: the concrete enemy `w3e` standing at column 5 of lane 2
respawns into lane 1 at column -1 with speed 1 and a cleared hit-box
flag. -/
theorem C3_respawn_transition_witness :
    C3wE.visable = false ∧
    1 ≤ C3wE.y ∧ C3wE.y ≤ 3 ∧
    (∀ v : ℤ, 1 ≤ v → v ≤ 3 → ∃ rr : ℕ, getRandomInt 1 4 rr = v) ∧
    C3wE.x < 0 ∧ (∀ s ∈ baseEnv.queues.getD (C3wE.y - 1).toNat [], C3wE.x ≠ -(s : ℚ)) ∧
    C3wE.speed = getRandomInt 1 4 0 ∧ 1 ≤ C3wE.speed ∧ C3wE.speed ≤ 3 ∧
    C3wE.hitBox = false :=
  C3_respawn_transition 0 0 0 0 w3e baseEnv C3wE C3wEnv (by decide)
    (by norm_num [w3e]) (by norm_num [baseEnv, initBox]) C3_witness_eval

theorem foldl_last_match {α : Type} (q : α → Prop) [DecidablePred q] (f : α → ℤ) :
    ∀ (l : List α) (a : ℤ),
      ((∀ o ∈ l, ¬ q o) ∧ l.foldl (fun acc o => if q o then f o else acc) a = a) ∨
      (∃ l1 o l2, l = l1 ++ o :: l2 ∧ q o ∧ (∀ o2 ∈ l2, ¬ q o2) ∧
        l.foldl (fun acc o => if q o then f o else acc) a = f o) := by
  intro l
  induction l with
  | nil =>
    intro a
    exact Or.inl ⟨by simp, rfl⟩
  | cons hd tl ih =>
    intro a
    by_cases hq : q hd
    · rcases ih (f hd) with ⟨hnone, heq⟩ | ⟨l1, o, l2, hsplit, hqo, hlast, heq⟩
      · refine Or.inr ⟨[], hd, tl, rfl, hq, hnone, ?_⟩
        rw [List.foldl_cons, if_pos hq]
        exact heq
      · refine Or.inr ⟨hd :: l1, o, l2, by rw [hsplit]; rfl, hqo, hlast, ?_⟩
        rw [List.foldl_cons, if_pos hq]
        exact heq
    · rcases ih a with ⟨hnone, heq⟩ | ⟨l1, o, l2, hsplit, hqo, hlast, heq⟩
      · refine Or.inl ⟨?_, ?_⟩
        · intro o ho
          rcases List.mem_cons.mp ho with rfl | hmem
          · exact hq
          · exact hnone o hmem
        · rw [List.foldl_cons, if_neg hq]
          exact heq
      · refine Or.inr ⟨hd :: l1, o, l2, by rw [hsplit]; rfl, hqo, hlast, ?_⟩
        rw [List.foldl_cons, if_neg hq]
        exact heq

theorem convoySpeed_cases (others : List Enemy) (enemyX : ℚ) (e : Enemy) :
    ((∀ o ∈ others, ¬(o.y = e.y ∧ enemyX ≤ o.x + 1 ∧ o.speed < e.speed)) ∧
      Enemy.convoySpeed others enemyX e = 0) ∨
    (∃ l1 o l2, others = l1 ++ o :: l2 ∧
      (o.y = e.y ∧ enemyX ≤ o.x + 1 ∧ o.speed < e.speed) ∧
      (∀ o2 ∈ l2, ¬(o2.y = e.y ∧ enemyX ≤ o2.x + 1 ∧ o2.speed < e.speed)) ∧
      Enemy.convoySpeed others enemyX e = o.speed) := by
  unfold Enemy.convoySpeed
  exact foldl_last_match (fun o => o.y = e.y ∧ enemyX ≤ o.x + 1 ∧ o.speed < e.speed)
    (fun o => o.speed) others 0

theorem queueStep_visible (e : Enemy) (env : EnemyEnvState) (h : e.visable = true) :
    Enemy.queueStep e env = (e.x, e, env) := by
  unfold Enemy.queueStep
  rw [if_neg (by rw [h]; rintro ⟨hc, -⟩; cases hc)]

theorem update_transit (dt : ℚ) (r1 r2 r3 : ℕ) (e : Enemy) (env : EnemyEnvState)
    (hvis : e.visable = true) (hx5 : e.x + dt * (e.speed : ℚ) < 5) :
    Enemy.update dt r1 r2 r3 e env =
      some (Enemy.hitPhase
        (if 0 < Enemy.convoySpeed env.others (e.x + dt * (e.speed : ℚ))
              {e with x := e.x + dt * (e.speed : ℚ)}
         then {e with x := e.x + dt * (e.speed : ℚ),
                      speed := Enemy.convoySpeed env.others (e.x + dt * (e.speed : ℚ))
                        {e with x := e.x + dt * (e.speed : ℚ)}}
         else {e with x := e.x + dt * (e.speed : ℚ)}) env) := by
  unfold Enemy.update
  dsimp only
  rw [if_neg (by rw [hvis]; rintro ⟨-, h⟩; cases h),
    if_neg (by rintro ⟨h5, -⟩; exact absurd h5 (not_le.mpr hx5))]
  rw [queueStep_visible {e with x := e.x + dt * (e.speed : ℚ)} env hvis]

/-- C4 (amended): during the in-transit phase of `Enemy.update` (all lane
speeds at least 1), an enemy lowers its speed iff some enemy of the same
row whose column is at least the scan column minus one — that is, at most
one column behind it, but also *any* distance ahead, not only within one
column — has a strictly lower speed; the speed it adopts is the speed of
the last such enemy in the `allEnemies` scan order: the scan list splits
as `l1 ++ o :: l2` with `o` matching, no match in `l2`, and the new speed
equal to `o`'s. -/
theorem C4_convoy_speed (dt : ℚ) (r1 r2 r3 : ℕ) (e : Enemy) (env : EnemyEnvState)
    (hvis : e.visable = true) (hx5 : e.x + dt * (e.speed : ℚ) < 5)
    (hsp : ∀ o ∈ env.others, 1 ≤ o.speed) :
    ∃ e' env', Enemy.update dt r1 r2 r3 e env = some (e', env') ∧
      (e'.speed < e.speed ↔
        ∃ o ∈ env.others, o.y = e.y ∧ e.x + dt * (e.speed : ℚ) ≤ o.x + 1 ∧
          o.speed < e.speed) ∧
      (e'.speed = e.speed ∨
        ∃ l1 o l2, env.others = l1 ++ o :: l2 ∧
          (o.y = e.y ∧ e.x + dt * (e.speed : ℚ) ≤ o.x + 1 ∧ o.speed < e.speed) ∧
          (∀ o2 ∈ l2, ¬(o2.y = e.y ∧ e.x + dt * (e.speed : ℚ) ≤ o2.x + 1 ∧
            o2.speed < e.speed)) ∧
          e'.speed = o.speed) := by
  rw [update_transit dt r1 r2 r3 e env hvis hx5]
  have hcases := convoySpeed_cases env.others (e.x + dt * (e.speed : ℚ))
      {e with x := e.x + dt * (e.speed : ℚ)}
  set em : Enemy := {e with x := e.x + dt * (e.speed : ℚ)} with hem
  set ns : ℤ := Enemy.convoySpeed env.others (e.x + dt * (e.speed : ℚ)) em with hns
  refine ⟨(Enemy.hitPhase (if 0 < ns then {em with speed := ns} else em) env).1,
    (Enemy.hitPhase (if 0 < ns then {em with speed := ns} else em) env).2, rfl, ?_, ?_⟩ <;>
    rcases hcases with ⟨hnone, hz⟩ | ⟨l1, o, l2, hsplit, hqo, hlast, hsome⟩
  · rw [if_neg (by omega : ¬(0 : ℤ) < ns)]
    rw [(hitPhase_fst em env).2.2.1]
    constructor
    · intro h
      exact absurd rfl (ne_of_lt h)
    · rintro ⟨o, ho, hcond⟩
      exact absurd hcond (hnone o ho)
  · have ho : o ∈ env.others := by
      rw [hsplit]
      exact List.mem_append_right l1 (List.mem_cons_self o l2)
    rw [if_pos (by have := hsp o ho; omega : (0 : ℤ) < ns)]
    rw [(hitPhase_fst _ env).2.2.1]
    have hqo' : o.y = e.y ∧ e.x + dt * (e.speed : ℚ) ≤ o.x + 1 ∧ o.speed < e.speed := hqo
    have hlt : ns < e.speed := by
      rw [hsome]
      exact hqo'.2.2
    constructor
    · intro _
      exact ⟨o, ho, hqo'⟩
    · intro _
      exact hlt
  · rw [if_neg (by omega : ¬(0 : ℤ) < ns)]
    rw [(hitPhase_fst em env).2.2.1]
    exact Or.inl rfl
  · have ho : o ∈ env.others := by
      rw [hsplit]
      exact List.mem_append_right l1 (List.mem_cons_self o l2)
    rw [if_pos (by have := hsp o ho; omega : (0 : ℤ) < ns)]
    rw [(hitPhase_fst _ env).2.2.1]
    have hqo' : o.y = e.y ∧ e.x + dt * (e.speed : ℚ) ≤ o.x + 1 ∧ o.speed < e.speed := hqo
    have hlast' : ∀ o2 ∈ l2, ¬(o2.y = e.y ∧ e.x + dt * (e.speed : ℚ) ≤ o2.x + 1 ∧
        o2.speed < e.speed) := hlast
    exact Or.inr ⟨l1, o, l2, hsplit, hqo', hlast', hsome⟩

/-- C4 counterexample: the enemy `cex4e` (speed 3) lowers its speed to 1
during its update although the only slower enemy in its lane, `cex4b`,
sits two full columns ahead — no enemy within one column ahead of `cex4e`
is slower, so the claimed "within 1 column ahead" condition is false while
the speed still drops. -/
theorem C4_convoy_counterexample :
    (Enemy.update 0 0 0 0 cex4e cex4env).map (fun pr => pr.1.speed) = some 1 ∧
    cex4e.speed = 3 ∧
    (∀ o ∈ cex4env.others,
      ¬(o.y = cex4e.y ∧ cex4e.x ≤ o.x ∧ o.x ≤ cex4e.x + 1 ∧ o.speed < cex4e.speed)) := by
  refine ⟨?_, rfl, ?_⟩
  · norm_num [Enemy.update, Enemy.hitPhase, Enemy.queueStep, Enemy.convoySpeed,
      Player.intersects, cex4e, cex4b, cex4env, baseEnv, initPlayer, initBox]
  · intro o ho
    rcases (by simpa [cex4env, baseEnv] using ho : o = cex4e ∨ o = cex4b) with rfl | rfl
    · rintro ⟨-, -, -, hs⟩
      norm_num [cex4e] at hs
    · rintro ⟨-, -, hx2, -⟩
      norm_num [cex4e, cex4b] at hx2

theorem C4_witness_hsp : ∀ o ∈ w4env.others, 1 ≤ o.speed := by
  intro o ho
  rcases (by simpa [w4env, baseEnv] using ho : o = cex4e ∨ o = w4b) with rfl | rfl <;>
    norm_num [cex4e, w4b]

/-- C4 witness: with the slower `w4b` half a column ahead of `cex4e`, the
update lowers the speed, and the characterization pins the last matching
enemy of the scan order. -/
theorem C4_convoy_speed_witness :
    ∃ e' env', Enemy.update 0 0 0 0 cex4e w4env = some (e', env') ∧
      (e'.speed < cex4e.speed ↔
        ∃ o ∈ w4env.others, o.y = cex4e.y ∧ cex4e.x + 0 * (cex4e.speed : ℚ) ≤ o.x + 1 ∧
          o.speed < cex4e.speed) ∧
      (e'.speed = cex4e.speed ∨
        ∃ l1 o l2, w4env.others = l1 ++ o :: l2 ∧
          (o.y = cex4e.y ∧ cex4e.x + 0 * (cex4e.speed : ℚ) ≤ o.x + 1 ∧
            o.speed < cex4e.speed) ∧
          (∀ o2 ∈ l2, ¬(o2.y = cex4e.y ∧ cex4e.x + 0 * (cex4e.speed : ℚ) ≤ o2.x + 1 ∧
            o2.speed < cex4e.speed)) ∧
          e'.speed = o.speed) :=
  C4_convoy_speed 0 0 0 0 cex4e w4env (by decide) (by norm_num [cex4e]) C4_witness_hsp

theorem update_transit_mono (dt : ℚ) (r1 r2 r3 : ℕ) (e : Enemy) (env : EnemyEnvState)
    (hvis : e.visable = true) (hdt : 0 ≤ dt) (hsp : 0 ≤ e.speed)
    (hx5 : e.x + dt * (e.speed : ℚ) < 5) :
    ∃ e' env', Enemy.update dt r1 r2 r3 e env = some (e', env') ∧
      e.x ≤ e'.x ∧ e'.visable = true ∧ 0 ≤ e'.speed := by
  rw [update_transit dt r1 r2 r3 e env hvis hx5]
  set em : Enemy := {e with x := e.x + dt * (e.speed : ℚ)} with hem
  set ns : ℤ := Enemy.convoySpeed env.others (e.x + dt * (e.speed : ℚ)) em with hns
  refine ⟨(Enemy.hitPhase (if 0 < ns then {em with speed := ns} else em) env).1,
    (Enemy.hitPhase (if 0 < ns then {em with speed := ns} else em) env).2, rfl, ?_, ?_, ?_⟩
  · rw [(hitPhase_fst _ env).1]
    have hmul : 0 ≤ dt * (e.speed : ℚ) :=
      mul_nonneg hdt (by exact_mod_cast hsp)
    split_ifs
    · show e.x ≤ e.x + dt * (e.speed : ℚ)
      linarith
    · show e.x ≤ e.x + dt * (e.speed : ℚ)
      linarith
  · rw [(hitPhase_fst _ env).2.2.2]
    split_ifs
    · exact hvis
    · exact hvis
  · rw [(hitPhase_fst _ env).2.2.1]
    split_ifs with h
    · exact le_of_lt h
    · exact hsp

theorem visRun_mono (ts : List Tick) (e : Enemy)
    (hvis : e.visable = true) (hsp : 0 ≤ e.speed) (hrun : visRun e ts = true) :
    ∃ er : Enemy, enemyRun ts e = some er ∧ e.x ≤ er.x ∧
      er.visable = true ∧ 0 ≤ er.speed := by
  induction ts generalizing e with
  | nil => exact ⟨e, rfl, le_refl _, hvis, hsp⟩
  | cons t ts ih =>
    rw [visRun] at hrun
    simp only [Bool.and_eq_true, decide_eq_true_eq] at hrun
    obtain ⟨⟨⟨-, hdt⟩, hx5⟩, hmatch⟩ := hrun
    obtain ⟨e', env', heq, hle, hv', hs'⟩ :=
      update_transit_mono t.dt t.r1 t.r2 t.r3 e t.env hvis hdt hsp hx5
    rw [heq] at hmatch
    obtain ⟨er, hrun', hle', hv'', hs''⟩ := ih e' hv' hs' hmatch
    refine ⟨er, ?_, le_trans hle hle', hv'', hs''⟩
    rw [enemyRun, heq]
    exact hrun'

/-- C7: along every sequence of non-negative-`dt` ticks during which a
visible enemy never triggers the respawn transition, its column is
non-decreasing across `Enemy.update` calls; on the tick on which the
respawn transition fires, the new column is negative and distinct from
every currently-occupied off-board slot of the new lane. -/
theorem C7_monotone_until_respawn (ts : List Tick) (tf : Tick) (e er ef : Enemy)
    (envf : EnemyEnvState)
    (hvis : e.visable = true) (hsp : 0 ≤ e.speed) (hrun : visRun e ts = true)
    (hres : enemyRun ts e = some er)
    (hfire : (5 : ℚ) ≤ er.x + tf.dt * (er.speed : ℚ))
    (hupd : Enemy.update tf.dt tf.r1 tf.r2 tf.r3 er tf.env = some (ef, envf)) :
    e.x ≤ er.x ∧ ef.visable = false ∧ ef.x < 0 ∧
    (∀ s ∈ tf.env.queues.getD (ef.y - 1).toNat [], ef.x ≠ -(s : ℚ)) := by
  obtain ⟨er', hres', hle, hv', hs'⟩ := visRun_mono ts e hvis hsp hrun
  rw [hres] at hres'
  obtain rfl : er = er' := Option.some.inj hres'
  obtain ⟨hv, hy, hs, hb, c, hm, hxv⟩ :=
    respawn_core tf.dt tf.r1 tf.r2 tf.r3 er tf.env ef envf hv' hfire hupd
  have hcb := excludeMultiple_some_spec 1 5 _ tf.r2 c hm
  have hc1 : (1 : ℚ) ≤ (c : ℚ) := by exact_mod_cast hcb.1
  refine ⟨hle, hv, ?_, ?_⟩
  · rw [hxv]
    linarith
  · intro s hsmem heq
    rw [hxv] at heq
    have hcs : c = s := by
      have : (c : ℚ) = (s : ℚ) := by linarith [neg_inj.mp heq]
      exact_mod_cast this
    rw [hy] at hsmem
    exact hcb.2.2 (hcs ▸ hsmem)

theorem C7_run_eval : visRun w7e [w7t, w7t] = true := by
  norm_num [visRun, Enemy.update, Enemy.hitPhase, Enemy.queueStep, Enemy.convoySpeed,
    Player.intersects, w7e, w7t, baseEnv, initPlayer, initBox]

theorem C7_res_eval : enemyRun [w7t, w7t] w7e = some C7er := by
  norm_num [enemyRun, Enemy.update, Enemy.hitPhase, Enemy.queueStep, Enemy.convoySpeed,
    Player.intersects, w7e, w7t, C7er, baseEnv, initPlayer, initBox]

theorem C7_fire_eval : Enemy.update 2 0 0 0 C7er baseEnv = some (C3wE, C3wEnv) := by
  have h1 : getRandomInt 1 4 0 = 1 := by decide
  have h2 : getRandomIntExcludeMultiple 1 5 ([] : List ℤ) 0 = some 1 := by decide
  norm_num [Enemy.update, Enemy.hitPhase, Enemy.queueStep, Enemy.convoySpeed,
    Player.intersects, jsSplice, listModify, h1, h2, C7er, w7e, baseEnv, C3wE, C3wEnv,
    initPlayer, initBox, List.getD]

/-- C7 witness: the enemy `w7e` advances from column 1 to 3 across two
visible ticks, then a two-second tick fires the respawn into the empty
lane-1 queue at column -1. -/
theorem C7_monotone_until_respawn_witness :
    w7e.x ≤ C7er.x ∧ C3wE.visable = false ∧ C3wE.x < 0 ∧
    (∀ s ∈ w7tf.env.queues.getD (C3wE.y - 1).toNat [], C3wE.x ≠ -(s : ℚ)) :=
  C7_monotone_until_respawn [w7t, w7t] w7tf w7e C7er C3wE C3wEnv (by decide) (by decide)
    C7_run_eval C7_res_eval (by norm_num [w7tf, C7er, w7e]) C7_fire_eval
